import Mathlib

/-!
A shallow embedding of `src/server.rs` from the raft-rs repository: the
networked server shell of a Raft consensus node.  Pure data (identifiers,
addresses, messages) is represented by `Nat`-based types; the mio event
loop's timer wheel is an explicit `Poll` state; fallible operations and
panics are made observable by returning `Except SrvError`.  Outcomes of
external I/O (socket writes and registrations with the poller) are
supplied by an `IOOracle` of boolean outcomes so that every definition
stays executable.  The `Consensus` engine is an external collaborator of
the server: the embedding records each notification the server sends to it
in `ServerState.consensusCalls`, and the `Actions` bundle a consensus call
returns is passed in as a parameter of the corresponding handler.
-/

/-- Identifier of a replica (`ServerId` in the source). -/
abbrev ServerId := Nat

/-- Identifier of a client session (`ClientId` in the source). -/
abbrev ClientId := Nat

/-- Slab token indexing the connection table (`mio::Token`). -/
abbrev Token := Nat

/-- A socket address, kept opaque. -/
abbrev SocketAddr := Nat

/-- Handle of a registered timer in the event loop's timer wheel. -/
abbrev TimerHandle := Nat

/-- The reserved token of the listening socket (`const LISTENER: Token = Token(0)`). -/
def LISTENER : Token := 0

/-- Lookup in an association list (models `HashMap` / `Slab` indexing). -/
def alistLookup {α β : Type} [DecidableEq α] : List (α × β) → α → Option β
  | [], _ => none
  | (k, v) :: rest, a => if k = a then some v else alistLookup rest a

/-- Remove every binding of a key (models `HashMap::remove` / `Slab::remove`). -/
def alistErase {α β : Type} [DecidableEq α] : List (α × β) → α → List (α × β)
  | [], _ => []
  | (k, v) :: rest, a => if k = a then alistErase rest a else (k, v) :: alistErase rest a

/-- Insert a binding, replacing any previous one (models `HashMap::insert`;
the previous value, which `insert` returns in Rust, is recovered with
`alistLookup` before the insertion). -/
def alistInsert {α β : Type} [DecidableEq α] (l : List (α × β)) (a : α) (b : β) :
    List (α × β) :=
  (a, b) :: alistErase l a

/-- Apply a function to the value bound to a key (models in-place mutation
of a slab slot, `self.connections[token].…`). -/
def alistUpdate {α β : Type} [DecidableEq α] (l : List (α × β)) (a : α) (f : β → β) :
    List (α × β) :=
  l.map (fun kv => if kv.fst = a then (kv.fst, f kv.snd) else kv)

/-- Connection kind tag (`connection::ConnectionKind`). -/
inductive ConnectionKind where
  | unknown : ConnectionKind
  | peer (id : ServerId) : ConnectionKind
  | client (id : ClientId) : ConnectionKind
deriving DecidableEq, Repr

/-- A framed message.  The payload encoding is opaque to the server core;
the preamble variants are distinguished because `reconnect_peer` enqueues a
server preamble (spec section 6.3). -/
inductive Message where
  | serverPreamble (id : ServerId) (addr : SocketAddr) : Message
  | clientPreamble (id : ClientId) : Message
  | payload (n : Nat) : Message
deriving DecidableEq, Repr

/-- Modelled from the spec: `consensus::ConsensusTimeout` (consensus.rs is
not under src/).  Section 6.1: it covers at least `Election` and
`Heartbeat(peer)` kinds. -/
inductive ConsensusTimeout where
  | election : ConsensusTimeout
  | heartbeat (peer : ServerId) : ConsensusTimeout
deriving DecidableEq, Repr

/-- `consensus::TimeoutConfiguration`, as constructed in `Server::finalize`. -/
structure TimeoutConfiguration where
  election_min_ms : Nat
  election_max_ms : Nat
  heartbeat_ms : Nat
deriving DecidableEq, Repr

/-- Modelled from the spec: `ConsensusTimeout::duration_ms` (consensus.rs is
not under src/).  Section 6.2: election timers sample uniformly in
`[election_min_ms, election_max_ms]` — the random sample is abstracted to
the lower bound, which no claim depends on — and heartbeat timers are
exactly `heartbeat_ms`. -/
def ConsensusTimeout.duration_ms (t : ConsensusTimeout) (c : TimeoutConfiguration) : Nat :=
  match t with
  | ConsensusTimeout.election => c.election_min_ms
  | ConsensusTimeout.heartbeat _ => c.heartbeat_ms

/-- `server::ServerTimeout`: payload of a timer in the wheel. -/
inductive ServerTimeout where
  | consensus (t : ConsensusTimeout) : ServerTimeout
  | reconnect (t : Token) : ServerTimeout
deriving DecidableEq, Repr

/-- The timer wheel part of the mio event loop: live one-shot timers as
`(handle, payload, duration)` entries plus a fresh-handle counter. -/
structure Poll where
  timers : List (TimerHandle × ServerTimeout × Nat)
  nextHandle : TimerHandle
deriving DecidableEq, Repr

/-- `event_loop.timeout_ms(payload, duration)`: arm a one-shot timer and
return its handle. -/
def Poll.timeout_ms (p : Poll) (payload : ServerTimeout) (duration : Nat) :
    TimerHandle × Poll :=
  (p.nextHandle,
   { timers := (p.nextHandle, payload, duration) :: p.timers,
     nextHandle := p.nextHandle + 1 })

/-- `event_loop.clear_timeout(handle)`: cancel a timer, reporting whether it
was still live. -/
def Poll.clear_timeout (p : Poll) (h : TimerHandle) : Bool × Poll :=
  (p.timers.any (fun e => decide (e.fst = h)),
   { p with timers := p.timers.filter (fun e => decide (e.fst ≠ h)) })

/-- Number of live timers whose payload is `Consensus(k)` (spec section 8,
property 3: timer uniqueness). -/
def Poll.consensusTimerCount (p : Poll) (k : ConsensusTimeout) : Nat :=
  (p.timers.filter (fun e => decide (e.snd.fst = ServerTimeout.consensus k))).length

/-- One remote endpoint.  Modelled from the spec (connection.rs is not under
src/): a kind tag, the remote address (authoritative for reconnection), and
the outbound message queue.  Socket byte buffers are I/O state outside the
shallow embedding. -/
structure Connection where
  kind : ConnectionKind
  addr : SocketAddr
  outbox : List Message
deriving DecidableEq, Repr

/-- Modelled from the spec: `Connection::peer` — a dial-pending connection
with the `Peer(id)` kind pre-assigned and an empty outbound queue. -/
def Connection.peer (id : ServerId) (addr : SocketAddr) : Connection :=
  { kind := ConnectionKind.peer id, addr := addr, outbox := [] }

/-- Modelled from the spec: `Connection::unknown` — wrap an accepted socket
in `Unknown` kind. -/
def Connection.unknown (addr : SocketAddr) : Connection :=
  { kind := ConnectionKind.unknown, addr := addr, outbox := [] }

/-- Modelled from the spec: `Connection::send_message` enqueues at the tail
of the outbound queue and reports whether write interest must be rearmed,
true iff the queue was previously empty. -/
def Connection.send_message (c : Connection) (m : Message) : Bool × Connection :=
  (c.outbox.isEmpty, { c with outbox := c.outbox ++ [m] })

/-- `Connection::clear_messages`: drop all queued messages. -/
def Connection.clear_messages (c : Connection) : Connection :=
  { c with outbox := [] }

/-- Modelled from the spec: the back-off delay `reset_peer` chooses is
implementation-defined (spec section 9); a fixed short delay. -/
def backoffDurationMs : Nat := 10

/-- Modelled from the spec: `Connection::reset_peer` closes the socket,
drops the outbox, puts the connection back into dialing-pending state
(the slot stays valid), and arms the `Reconnect(token)` back-off timer in
the event loop, returning the payload and the timer handle.  The
possibility of an I/O failure inside `reset_peer` is modelled by the
caller's oracle flag. -/
def Connection.reset_peer (c : Connection) (p : Poll) (token : Token) :
    (ServerTimeout × TimerHandle) × Connection × Poll :=
  let timeout := ServerTimeout.reconnect token
  let hp := p.timeout_ms timeout backoffDurationMs
  ((timeout, hp.fst), { c with outbox := [] }, hp.snd)

/-- Modelled from the spec: `Connection::reconnect_peer` opens a new socket
to the stored address and enqueues the outbound server preamble announcing
`self_id` and the listening address (spec section 4.2). -/
def Connection.reconnect_peer (c : Connection) (selfId : ServerId)
    (listenAddr : SocketAddr) : Connection :=
  { c with outbox := c.outbox ++ [Message.serverPreamble selfId listenAddr] }

/-- A notification the server sends to the external `Consensus` engine. -/
inductive ConsensusEvent where
  | applyPeerMessage (id : ServerId) (m : Message) : ConsensusEvent
  | applyClientMessage (id : ClientId) (m : Message) : ConsensusEvent
  | applyTimeout (t : ConsensusTimeout) : ConsensusEvent
  | peerConnectionReset (id : ServerId) (addr : SocketAddr) : ConsensusEvent
deriving DecidableEq, Repr

/-- Modelled from the spec: the `Actions` bundle returned by consensus
(consensus.rs is not under src/), with exactly the fields `execute_actions`
destructures. -/
structure Actions where
  peer_messages : List (ServerId × Message)
  client_messages : List (ClientId × Message)
  timeouts : List ConsensusTimeout
  clear_timeouts : Bool
  clear_peer_messages : Bool
deriving DecidableEq, Repr

/-- The empty bundle, `Actions::new()`. -/
def Actions.empty : Actions :=
  { peer_messages := [], client_messages := [], timeouts := [],
    clear_timeouts := false, clear_peer_messages := false }

/-- Errors and panics of the server shell.  The `Error::Raft` variants come
from construction and the preamble dispatch; the `panic…` variants make the
source's `unwrap` / `expect` / `scoped_assert!` / `unreachable!` failures
observable. -/
inductive SrvError where
  | invalidPeerSet : SrvError
  | connectionLimitReached : SrvError
  | unknownConnectionType : SrvError
  | connectionRegisterFailed : SrvError
  | panicAssert : SrvError
  | panicUnwrap : SrvError
  | panicUnreachable : SrvError
deriving DecidableEq, Repr

/-- The state of `server::Server` that the shallow embedding tracks:
the connection slab, the two secondary indexes, the two timer maps, the
timeout configuration, the timer wheel, and the trace of notifications sent
to the external consensus engine. -/
structure ServerState where
  id : ServerId
  listenAddr : SocketAddr
  connections : List (Token × Connection)
  maxConnections : Nat
  peerTokens : List (ServerId × Token)
  clientTokens : List (ClientId × Token)
  consensusTimeouts : List (ConsensusTimeout × TimerHandle)
  reconnectionTimeouts : List (Token × TimerHandle)
  timeoutConfig : TimeoutConfiguration
  poll : Poll
  consensusCalls : List ConsensusEvent
deriving DecidableEq, Repr

/-- Outcomes of the external I/O a handler performs, per token: whether a
`Connection::send_message`, `reregister`, `reset_peer`, `writable`,
`reconnect_peer` or `register` call succeeds, how many queued messages a
writable event flushes, and the address of an accepted socket if any. -/
structure IOOracle where
  sendOk : Token → Bool
  reregOk : Token → Bool
  resetPeerOk : Token → Bool
  writableOk : Token → Bool
  reconnectOk : Token → Bool
  registerOk : Token → Bool
  writeDrain : Token → Nat
  accepted : Option SocketAddr

/-- The all-success oracle with no pending accepted socket. -/
def allOkOracle : IOOracle :=
  { sendOk := fun _ => true, reregOk := fun _ => true, resetPeerOk := fun _ => true,
    writableOk := fun _ => true, reconnectOk := fun _ => true,
    registerOk := fun _ => true, writeDrain := fun _ => 0, accepted := none }

/-- First free token of the slab, searching from `t` with `fuel` slots left
(`Slab::new_starting_at(Token(1), max_connections)` hands out the lowest
vacant index in `1..=max`). -/
def slabFreeTokenGo (conns : List (Token × Connection)) : Token → Nat → Option Token
  | _, 0 => none
  | t, Nat.succ fuel =>
    if (alistLookup conns t).isNone then some t else slabFreeTokenGo conns (t + 1) fuel

/-- First free token of the connection slab, `none` when the capacity
`max` is exhausted. -/
def slabFreeToken (conns : List (Token × Connection)) (max : Nat) : Option Token :=
  slabFreeTokenGo conns 1 max

/-- `Server::reset_connection`.  Per the connection's kind at the time of
the call: `Peer` resets in place (crashing — `panicUnwrap` — if `reset_peer`
fails, per the source comment) and records the back-off timer; `Client`
removes the slot and the client index entry; `Unknown` removes the slot. -/
def Server.reset_connection (o : IOOracle) (token : Token) (s : ServerState) :
    Except SrvError ServerState :=
  match alistLookup s.connections token with
  | none => Except.error SrvError.panicUnwrap
  | some c =>
    match c.kind with
    | ConnectionKind.peer _ =>
      if o.resetPeerOk token then
        let r := Connection.reset_peer c s.poll token
        if (alistLookup s.reconnectionTimeouts token).isSome then
          Except.error SrvError.panicAssert
        else
          Except.ok { s with
            connections := alistUpdate s.connections token (fun _ => r.snd.fst),
            poll := r.snd.snd,
            reconnectionTimeouts := alistInsert s.reconnectionTimeouts token r.fst.snd }
      else Except.error SrvError.panicUnwrap
    | ConnectionKind.client cid =>
      let s1 := { s with connections := alistErase s.connections token }
      if (alistLookup s1.clientTokens cid).isSome then
        Except.ok { s1 with clientTokens := alistErase s1.clientTokens cid }
      else Except.error SrvError.panicAssert
    | ConnectionKind.unknown =>
      Except.ok { s with connections := alistErase s.connections token }

/-- `Server::send_message`: enqueue on the connection; when the queue was
empty, reregister to add write interest, and reset the connection on a
send or reregister failure. -/
def Server.send_message (o : IOOracle) (token : Token) (m : Message) (s : ServerState) :
    Except SrvError ServerState :=
  match alistLookup s.connections token with
  | none => Except.error SrvError.panicUnwrap
  | some c =>
    if o.sendOk token then
      let r := Connection.send_message c m
      let s1 := { s with connections := alistUpdate s.connections token (fun _ => r.snd) }
      if r.fst then
        if o.reregOk token then Except.ok s1 else Server.reset_connection o token s1
      else Except.ok s1
    else Server.reset_connection o token s

/-- The `clear_peer_messages` loop of `execute_actions`: for every token in
`peer_tokens`, clear that connection's outbox (indexing a vacant slot
panics). -/
def clearPeerOutboxesGo : List (ServerId × Token) → ServerState →
    Except SrvError ServerState
  | [], s => Except.ok s
  | (_, tok) :: rest, s =>
    match alistLookup s.connections tok with
    | none => Except.error SrvError.panicUnwrap
    | some _ =>
      clearPeerOutboxesGo rest
        { s with connections := alistUpdate s.connections tok Connection.clear_messages }

/-- The `peer_messages` loop of `execute_actions`: `peer_tokens[&peer]`
panics when the peer is not indexed. -/
def sendPeerMessagesGo (o : IOOracle) : List (ServerId × Message) → ServerState →
    Except SrvError ServerState
  | [], s => Except.ok s
  | (pid, m) :: rest, s =>
    match alistLookup s.peerTokens pid with
    | none => Except.error SrvError.panicUnwrap
    | some token => Server.send_message o token m s >>= sendPeerMessagesGo o rest

/-- The `client_messages` loop of `execute_actions`: a client that is not in
`client_tokens` is skipped silently. -/
def sendClientMessagesGo (o : IOOracle) : List (ClientId × Message) → ServerState →
    Except SrvError ServerState
  | [], s => Except.ok s
  | (cid, m) :: rest, s =>
    match alistLookup s.clientTokens cid with
    | some token => Server.send_message o token m s >>= sendClientMessagesGo o rest
    | none => sendClientMessagesGo o rest s

/-- The `clear_timeouts` loop of `execute_actions`: cancel every timer in
`consensus_timeouts`, asserting each was live, then empty the map. -/
def clearConsensusTimeoutsGo : List (ConsensusTimeout × TimerHandle) → ServerState →
    Except SrvError ServerState
  | [], s => Except.ok { s with consensusTimeouts := [] }
  | (_, h) :: rest, s =>
    let r := s.poll.clear_timeout h
    if r.fst then clearConsensusTimeoutsGo rest { s with poll := r.snd }
    else Except.error SrvError.panicAssert

/-- The arming loop of `execute_actions`: arm each requested timeout and
insert its handle into `consensus_timeouts`.  The handle of a replaced
entry is dropped without clearing the old timer from the wheel — the
cancellation in the source is commented out (`//todo`). -/
def armTimeoutsGo : List ConsensusTimeout → ServerState → ServerState
  | [], s => s
  | t :: rest, s =>
    let duration := ConsensusTimeout.duration_ms t s.timeoutConfig
    let r := s.poll.timeout_ms (ServerTimeout.consensus t) duration
    armTimeoutsGo rest
      { s with poll := r.snd,
               consensusTimeouts := alistInsert s.consensusTimeouts t r.fst }

/-- `Server::execute_actions`: the five sequential blocks of the source, in
source order. -/
def Server.execute_actions (o : IOOracle) (acts : Actions) (s : ServerState) :
    Except SrvError ServerState :=
  (if acts.clear_peer_messages then clearPeerOutboxesGo s.peerTokens s else Except.ok s) >>=
    fun s1 => sendPeerMessagesGo o acts.peer_messages s1 >>=
    fun s2 => sendClientMessagesGo o acts.client_messages s2 >>=
    fun s3 =>
      (if acts.clear_timeouts then clearConsensusTimeoutsGo s3.consensusTimeouts s3
       else Except.ok s3) >>=
    fun s4 => Except.ok (armTimeoutsGo acts.timeouts s4)

/-- The `Server` branch of the `Unknown` arm of `Server::readable`, up to
and including the notification of consensus: set the connection's kind and
address from the preamble, swap the peer index to the new token, remove the
old slot, cancel any reconnection timer keyed by the old token, and record
the `peer_connection_reset` call. -/
def serverPreambleSwap (token : Token) (peerId : ServerId) (peerAddr : SocketAddr)
    (s : ServerState) : Except SrvError ServerState :=
  match alistLookup s.connections token with
  | none => Except.error SrvError.panicUnwrap
  | some c =>
    let c1 := { c with kind := ConnectionKind.peer peerId, addr := peerAddr }
    let s1 := { s with connections := alistUpdate s.connections token (fun _ => c1) }
    match alistLookup s1.peerTokens peerId with
    | none => Except.error SrvError.panicUnwrap
    | some prevToken =>
      let s2 := { s1 with peerTokens := alistInsert s1.peerTokens peerId token }
      match alistLookup s2.connections prevToken with
      | none => Except.error SrvError.panicUnwrap
      | some _ =>
        let s3 := { s2 with connections := alistErase s2.connections prevToken }
        match alistLookup s3.reconnectionTimeouts prevToken with
        | none =>
          Except.ok { s3 with
            consensusCalls := s3.consensusCalls ++
              [ConsensusEvent.peerConnectionReset peerId peerAddr] }
        | some h =>
          let r := s3.poll.clear_timeout h
          if r.fst then
            Except.ok { s3 with
              reconnectionTimeouts := alistErase s3.reconnectionTimeouts prevToken,
              poll := r.snd,
              consensusCalls := s3.consensusCalls ++
                [ConsensusEvent.peerConnectionReset peerId peerAddr] }
          else Except.error SrvError.panicAssert

/-- The full `Server` branch of the `Unknown` arm of `Server::readable`:
the swap followed by executing the `Actions` that
`Consensus::peer_connection_reset` returned. -/
def handleServerPreamble (o : IOOracle) (token : Token) (peerId : ServerId)
    (peerAddr : SocketAddr) (acts : Actions) (s : ServerState) :
    Except SrvError ServerState :=
  serverPreambleSwap token peerId peerAddr s >>= Server.execute_actions o acts

/-- The `Client` branch of the `Unknown` arm of `Server::readable`: set the
connection's kind, insert into `client_tokens`, and assert that no previous
connection held the same client id. -/
def handleClientPreamble (token : Token) (cid : ClientId) (s : ServerState) :
    Except SrvError ServerState :=
  match alistLookup s.connections token with
  | none => Except.error SrvError.panicUnwrap
  | some c =>
    let c1 := { c with kind := ConnectionKind.client cid }
    let s1 := { s with connections := alistUpdate s.connections token (fun _ => c1) }
    let prev := alistLookup s1.clientTokens cid
    let s2 := { s1 with clientTokens := alistInsert s1.clientTokens cid token }
    if prev.isSome then Except.error SrvError.panicAssert else Except.ok s2

/-- A parsed connection preamble (spec section 6.3). -/
inductive Preamble where
  | server (id : ServerId) (addr : SocketAddr) : Preamble
  | client (id : ClientId) : Preamble
  | unknownVariant : Preamble
deriving DecidableEq, Repr

/-- The `Unknown` arm of `Server::readable`, dispatching on the parsed
preamble; an unrecognized variant is `UnknownConnectionType`. -/
def handlePreamble (o : IOOracle) (token : Token) (p : Preamble) (acts : Actions)
    (s : ServerState) : Except SrvError ServerState :=
  match p with
  | Preamble.server pid paddr => handleServerPreamble o token pid paddr acts s
  | Preamble.client cid => handleClientPreamble token cid s
  | Preamble.unknownVariant => Except.error SrvError.unknownConnectionType

/-- `Server::accept_connection`, as tolerated by `ready` (accept errors are
logged and swallowed; the state effects that happened before the error
remain): wrap the accepted socket in an `Unknown` connection, insert it into
the slab, register it, and reset it if registration fails. -/
def Server.accept_connection (o : IOOracle) (s : ServerState) : ServerState :=
  match o.accepted with
  | none => s
  | some addr =>
    match slabFreeToken s.connections s.maxConnections with
    | none => s
    | some token =>
      let s1 := { s with connections := (token, Connection.unknown addr) :: s.connections }
      if o.registerOk token then s1
      else
        match Server.reset_connection o token s1 with
        | Except.ok s2 => s2
        | Except.error _ => s1

/-- Readiness bits of a mio event. -/
structure Readiness where
  is_error : Bool
  is_hup : Bool
  is_writable : Bool
  is_readable : Bool
deriving DecidableEq, Repr

/-- The readable part of `Handler::ready`: accept on the listener token,
otherwise drain the connection (`drain` models `Server::readable`, whose
per-message dispatch is embedded separately; `none` is a read or decode
error), then reregister, resetting the connection on either failure. -/
def Server.readyReadable (o : IOOracle) (drain : ServerState → Option ServerState)
    (token : Token) (s : ServerState) : Except SrvError ServerState :=
  if token = LISTENER then Except.ok (Server.accept_connection o s)
  else
    match drain s with
    | some s2 =>
      match alistLookup s2.connections token with
      | none => Except.error SrvError.panicUnwrap
      | some _ =>
        if o.reregOk token then Except.ok s2 else Server.reset_connection o token s2
    | none => Server.reset_connection o token s

/-- `Handler::ready`: error and hangup events reset the connection (and are
asserted never to come from the listener); a writable event drains the
outbox, resetting and returning on failure, and reregisters when no
readable event follows; a readable event is handled by `readyReadable`. -/
def Server.ready (o : IOOracle) (drain : ServerState → Option ServerState)
    (token : Token) (r : Readiness) (s : ServerState) : Except SrvError ServerState :=
  if r.is_error then
    if token = LISTENER then Except.error SrvError.panicAssert
    else Server.reset_connection o token s
  else if r.is_hup then
    if token = LISTENER then Except.error SrvError.panicAssert
    else Server.reset_connection o token s
  else if r.is_writable then
    if token = LISTENER then Except.error SrvError.panicAssert
    else
      match alistLookup s.connections token with
      | none => Except.error SrvError.panicUnwrap
      | some c =>
        if o.writableOk token then
          let c1 := { c with outbox := c.outbox.drop (o.writeDrain token) }
          let s1 := { s with connections := alistUpdate s.connections token (fun _ => c1) }
          if r.is_readable then Server.readyReadable o drain token s1
          else
            if o.reregOk token then Except.ok s1 else Server.reset_connection o token s1
        else Server.reset_connection o token s
  else if r.is_readable then Server.readyReadable o drain token s
  else Except.ok s

/-- `Handler::timeout`: a consensus timeout is removed from
`consensus_timeouts` (asserting it was registered) and fed to
`Consensus::apply_timeout`; a reconnect timeout is removed from
`reconnection_timeouts` (asserting it was registered), requires the
connection to still be a peer, reconnects and registers it, notifying
consensus on success and resetting the connection on failure.  `acts` is
the bundle the consensus call returns. -/
def Server.timeout (o : IOOracle) (acts : Actions) (t : ServerTimeout)
    (s : ServerState) : Except SrvError ServerState :=
  match t with
  | ServerTimeout.consensus ct =>
    if (alistLookup s.consensusTimeouts ct).isSome then
      Server.execute_actions o acts
        { s with consensusTimeouts := alistErase s.consensusTimeouts ct,
                 consensusCalls := s.consensusCalls ++ [ConsensusEvent.applyTimeout ct] }
    else Except.error SrvError.panicAssert
  | ServerTimeout.reconnect token =>
    if (alistLookup s.reconnectionTimeouts token).isSome then
      let s1 := { s with reconnectionTimeouts := alistErase s.reconnectionTimeouts token }
      match alistLookup s1.connections token with
      | none => Except.error SrvError.panicUnwrap
      | some c =>
        match c.kind with
        | ConnectionKind.peer pid =>
          if o.reconnectOk token then
            let c1 := Connection.reconnect_peer c s1.id s1.listenAddr
            let s2 := { s1 with
              connections := alistUpdate s1.connections token (fun _ => c1) }
            if o.registerOk token then
              Server.execute_actions o acts
                { s2 with consensusCalls := s2.consensusCalls ++
                    [ConsensusEvent.peerConnectionReset pid c.addr] }
            else Server.reset_connection o token s2
          else Server.reset_connection o token s1
        | ConnectionKind.client _ => Except.error SrvError.panicUnreachable
        | ConnectionKind.unknown => Except.error SrvError.panicUnreachable
    else Except.error SrvError.panicAssert

/-- The peer-population loop of `Server::finalize`: insert each configured
peer into the slab as a dial-pending `Peer` connection and index it,
asserting the peer id was not indexed before. -/
def finalizeGo : List (ServerId × SocketAddr) → ServerState → Except SrvError ServerState
  | [], s => Except.ok s
  | (pid, paddr) :: rest, s =>
    match slabFreeToken s.connections s.maxConnections with
    | none => Except.error SrvError.connectionLimitReached
    | some token =>
      let s1 := { s with connections := (token, Connection.peer pid paddr) :: s.connections }
      if (alistLookup s1.peerTokens pid).isSome then Except.error SrvError.panicAssert
      else finalizeGo rest { s1 with peerTokens := alistInsert s1.peerTokens pid token }

/-- `Server::finalize`: reject a peer set containing `self_id` with
`InvalidPeerSet`, then build the initial server state and populate the
connection slab and peer index. -/
def Server.finalize (id : ServerId) (addr : SocketAddr)
    (peers : List (ServerId × SocketAddr))
    (electionMin electionMax heartbeat maxConnections : Nat) :
    Except SrvError ServerState :=
  if (alistLookup peers id).isSome then Except.error SrvError.invalidPeerSet
  else
    finalizeGo peers
      { id := id, listenAddr := addr, connections := [],
        maxConnections := maxConnections, peerTokens := [], clientTokens := [],
        consensusTimeouts := [], reconnectionTimeouts := [],
        timeoutConfig :=
          { election_min_ms := electionMin, election_max_ms := electionMax,
            heartbeat_ms := heartbeat },
        poll := { timers := [], nextHandle := 0 }, consensusCalls := [] }

/-- The builder `Server::new` returns, with the default values of
`ServerBuilder::new`. -/
structure ServerBuilder where
  id : ServerId
  addr : SocketAddr
  peers : Option (List (ServerId × SocketAddr))
  maxConnections : Nat
  electionMinMillis : Nat
  electionMaxMillis : Nat
  heartbeatMillis : Nat
deriving DecidableEq, Repr

/-- `ServerBuilder::new` (reached through `Server::new`): defaults
`max_connections = 128`, `election_min_millis = 150`,
`election_max_millis = 350`, `heartbeat_millis = 60`. -/
def ServerBuilder.new (id : ServerId) (addr : SocketAddr) : ServerBuilder :=
  { id := id, addr := addr, peers := none, maxConnections := 128,
    electionMinMillis := 150, electionMaxMillis := 350, heartbeatMillis := 60 }

/-- `ServerBuilder::finalize`: delegate to `Server::finalize` with the
builder's fields, defaulting `peers` to the empty map. -/
def ServerBuilder.finalize (b : ServerBuilder) : Except SrvError ServerState :=
  Server.finalize b.id b.addr (b.peers.getD []) b.electionMinMillis b.electionMaxMillis
    b.heartbeatMillis b.maxConnections

/-- The construction `Server::spawn` performs on its background thread:
`Server::finalize(id, addr, peers, store, state_machine, 1500, 3000, 1000, 129)`. -/
def Server.spawn (id : ServerId) (addr : SocketAddr)
    (peers : List (ServerId × SocketAddr)) : Except SrvError ServerState :=
  Server.finalize id addr peers 1500 3000 1000 129

/-- Decidable equality of handler results, so that witnesses can be checked
by evaluation. -/
instance exceptDecidableEq {ε α : Type} [DecidableEq ε] [DecidableEq α] :
    DecidableEq (Except ε α) := fun a b =>
  match a, b with
  | Except.ok x, Except.ok y =>
    if h : x = y then Decidable.isTrue (by rw [h]) else Decidable.isFalse (by simp [h])
  | Except.error x, Except.error y =>
    if h : x = y then Decidable.isTrue (by rw [h]) else Decidable.isFalse (by simp [h])
  | Except.ok _, Except.error _ => Decidable.isFalse (by simp)
  | Except.error _, Except.ok _ => Decidable.isFalse (by simp)

/-- Lookup after erasing the same key yields nothing. -/
theorem alistLookup_erase_self {α β : Type} [DecidableEq α] (l : List (α × β)) (a : α) :
    alistLookup (alistErase l a) a = none := by
  induction l with
  | nil => rfl
  | cons kv rest ih =>
    obtain ⟨k, v⟩ := kv
    by_cases hk : k = a
    · simpa [alistErase, hk] using ih
    · simpa [alistErase, alistLookup, hk] using ih

/-- Erasing one key does not change lookups of other keys. -/
theorem alistLookup_erase_ne {α β : Type} [DecidableEq α] (l : List (α × β)) (a b : α)
    (h : b ≠ a) : alistLookup (alistErase l a) b = alistLookup l b := by
  induction l with
  | nil => rfl
  | cons kv rest ih =>
    obtain ⟨k, v⟩ := kv
    by_cases hk : k = a
    · subst hk
      have hkb : ¬ (k = b) := fun hkb => h (hkb ▸ rfl)
      simp [alistErase, alistLookup, hkb, ih]
    · by_cases hkb : k = b
      · subst hkb
        simp [alistErase, alistLookup, hk]
      · simp [alistErase, alistLookup, hk, hkb, ih]

/-- Lookup after inserting the same key yields the inserted value. -/
theorem alistLookup_insert_self {α β : Type} [DecidableEq α] (l : List (α × β)) (a : α)
    (b : β) : alistLookup (alistInsert l a b) a = some b := by
  simp [alistInsert, alistLookup]

/-- Inserting one key does not change lookups of other keys. -/
theorem alistLookup_insert_ne {α β : Type} [DecidableEq α] (l : List (α × β)) (a b : α)
    (v : β) (h : b ≠ a) : alistLookup (alistInsert l a v) b = alistLookup l b := by
  have : a ≠ b := fun hab => h hab.symm
  simp [alistInsert, alistLookup, this, alistLookup_erase_ne l a b h]

/-- Updating a list headed by the updated key. -/
theorem alistUpdate_cons_self {α β : Type} [DecidableEq α] (k : α) (v : β)
    (rest : List (α × β)) (f : β → β) :
    alistUpdate ((k, v) :: rest) k f = (k, f v) :: alistUpdate rest k f := by
  simp [alistUpdate]

/-- Updating a list headed by a different key. -/
theorem alistUpdate_cons_ne {α β : Type} [DecidableEq α] (k a : α) (hk : ¬ (k = a))
    (v : β) (rest : List (α × β)) (f : β → β) :
    alistUpdate ((k, v) :: rest) a f = (k, v) :: alistUpdate rest a f := by
  simp [alistUpdate, hk]

/-- Lookup after an in-place update of the same key. -/
theorem alistLookup_update_self {α β : Type} [DecidableEq α] (l : List (α × β)) (a : α)
    (f : β → β) : alistLookup (alistUpdate l a f) a = (alistLookup l a).map f := by
  induction l with
  | nil => rfl
  | cons kv rest ih =>
    obtain ⟨k, v⟩ := kv
    by_cases hk : k = a
    · subst hk
      rw [alistUpdate_cons_self]
      simp [alistLookup]
    · rw [alistUpdate_cons_ne k a hk]
      simp [alistLookup, hk, ih]

/-- Updating one key in place does not change lookups of other keys. -/
theorem alistLookup_update_ne {α β : Type} [DecidableEq α] (l : List (α × β)) (a b : α)
    (f : β → β) (h : b ≠ a) : alistLookup (alistUpdate l a f) b = alistLookup l b := by
  induction l with
  | nil => rfl
  | cons kv rest ih =>
    obtain ⟨k, v⟩ := kv
    by_cases hk : k = a
    · subst hk
      have hkb : ¬ (k = b) := fun hkb => h (hkb ▸ rfl)
      rw [alistUpdate_cons_self]
      simp [alistLookup, hkb, ih]
    · rw [alistUpdate_cons_ne k a hk]
      by_cases hkb : k = b
      · subst hkb
        simp [alistLookup, ih]
      · simp [alistLookup, hkb, ih]

/-- A successful lookup's value is among the range of the list. -/
theorem alistLookup_mem_sndMap {α β : Type} [DecidableEq α] (l : List (α × β)) (a : α)
    (b : β) (h : alistLookup l a = some b) : b ∈ l.map Prod.snd := by
  induction l with
  | nil => simp [alistLookup] at h
  | cons kv rest ih =>
    obtain ⟨k, v⟩ := kv
    by_cases hk : k = a
    · simp [alistLookup, hk] at h
      simp [h]
    · simp [alistLookup, hk] at h
      simp [ih h]

/-- The token the slab search returns is vacant. -/
theorem slabFreeTokenGo_vacant (conns : List (Token × Connection)) :
    ∀ fuel t tok, slabFreeTokenGo conns t fuel = some tok →
      alistLookup conns tok = none := by
  intro fuel
  induction fuel with
  | zero => intro t tok h; simp [slabFreeTokenGo] at h
  | succ n ih =>
    intro t tok h
    by_cases hv : (alistLookup conns t).isNone
    · simp [slabFreeTokenGo, hv] at h
      subst h
      exact Option.isNone_iff_eq_none.mp hv
    · simp [slabFreeTokenGo, hv] at h
      exact ih (t + 1) tok h

/-- The clear-timers loop of `execute_actions` ends with an empty
`consensus_timeouts` map. -/
theorem clearConsensusTimeoutsGo_empties :
    ∀ (entries : List (ConsensusTimeout × TimerHandle)) (u u2 : ServerState),
      clearConsensusTimeoutsGo entries u = Except.ok u2 → u2.consensusTimeouts = [] := by
  intro entries
  induction entries with
  | nil =>
    intro u u2 h
    simp [clearConsensusTimeoutsGo] at h
    simp [← h]
  | cons e rest ih =>
    intro u u2 h
    obtain ⟨t, hdl⟩ := e
    by_cases hf : (u.poll.clear_timeout hdl).fst
    · simp [clearConsensusTimeoutsGo, hf] at h
      exact ih _ _ h
    · simp [clearConsensusTimeoutsGo, hf] at h

/-- The clear-outboxes loop preserves an already-cleared outbox at any
token. -/
theorem clearPeerOutboxesGo_preserves_cleared :
    ∀ (pts : List (ServerId × Token)) (u u2 : ServerState) (tok : Token),
      clearPeerOutboxesGo pts u = Except.ok u2 →
      (∃ c, alistLookup u.connections tok = some c ∧ c.outbox = []) →
      ∃ c, alistLookup u2.connections tok = some c ∧ c.outbox = [] := by
  intro pts
  induction pts with
  | nil =>
    intro u u2 tok h hc
    simp [clearPeerOutboxesGo] at h
    exact h ▸ hc
  | cons e rest ih =>
    intro u u2 tok h hc
    obtain ⟨pid, tok1⟩ := e
    obtain ⟨c, hcl, hco⟩ := hc
    cases hu : alistLookup u.connections tok1 with
    | none => simp [clearPeerOutboxesGo, hu] at h
    | some c1 =>
      simp [clearPeerOutboxesGo, hu] at h
      by_cases htk : tok = tok1
      · subst htk
        refine ih _ _ tok h ⟨Connection.clear_messages c, ?_, rfl⟩
        rw [alistLookup_update_self, hcl]
        rfl
      · exact ih _ _ tok h ⟨c, by rw [alistLookup_update_ne _ _ _ _ htk]; exact hcl, hco⟩

/-- The clear-outboxes loop leaves every iterated token's outbox empty. -/
theorem clearPeerOutboxesGo_clears :
    ∀ (pts : List (ServerId × Token)) (u u2 : ServerState),
      clearPeerOutboxesGo pts u = Except.ok u2 →
      ∀ tok, tok ∈ pts.map Prod.snd →
        ∃ c, alistLookup u2.connections tok = some c ∧ c.outbox = [] := by
  intro pts
  induction pts with
  | nil => intro u u2 h tok hm; simp at hm
  | cons e rest ih =>
    intro u u2 h tok hm
    obtain ⟨pid, tok1⟩ := e
    cases hu : alistLookup u.connections tok1 with
    | none => simp [clearPeerOutboxesGo, hu] at h
    | some c1 =>
      simp [clearPeerOutboxesGo, hu] at h
      rw [List.map_cons] at hm
      rcases List.mem_cons.mp hm with hm | hm
      · subst hm
        refine clearPeerOutboxesGo_preserves_cleared rest _ _ tok h
          ⟨Connection.clear_messages c1, ?_, rfl⟩
        rw [alistLookup_update_self, hu]
        rfl
      · exact ih _ _ h tok hm

/-- The `clear_peer_messages` phase of `execute_actions`. -/
def clearPeerOutboxesPhase (flag : Bool) (s : ServerState) : Except SrvError ServerState :=
  if flag then clearPeerOutboxesGo s.peerTokens s else Except.ok s

/-- The `clear_timeouts` phase of `execute_actions`. -/
def clearTimeoutsPhase (flag : Bool) (s : ServerState) : Except SrvError ServerState :=
  if flag then clearConsensusTimeoutsGo s.consensusTimeouts s else Except.ok s

/-- The timeout-arming phase of `execute_actions`. -/
def armTimeoutsPhase (ts : List ConsensusTimeout) (s : ServerState) :
    Except SrvError ServerState :=
  Except.ok (armTimeoutsGo ts s)

/-- C4: `execute_actions` processes every bundle in the fixed order
clear-peer-outboxes, then peer sends, then client sends, then clear-timers,
then arm-timers; moreover the clear-timers phase cancels every registered
consensus timer and empties `consensus_timeouts`, and the clear-outboxes
phase leaves every connection indexed in `peer_tokens` with an empty
outbox. -/
theorem execute_actions_fixed_order (o : IOOracle) (acts : Actions) (s : ServerState) :
    Server.execute_actions o acts s =
      (clearPeerOutboxesPhase acts.clear_peer_messages s >>= fun s1 =>
        sendPeerMessagesGo o acts.peer_messages s1 >>= fun s2 =>
        sendClientMessagesGo o acts.client_messages s2 >>= fun s3 =>
        clearTimeoutsPhase acts.clear_timeouts s3 >>= fun s4 =>
        armTimeoutsPhase acts.timeouts s4) ∧
    (∀ u u2 : ServerState, clearTimeoutsPhase true u = Except.ok u2 →
       u2.consensusTimeouts = []) ∧
    (∀ (u u2 : ServerState) (pid : ServerId) (tok : Token),
       clearPeerOutboxesPhase true u = Except.ok u2 →
       alistLookup u.peerTokens pid = some tok →
       ∃ c, alistLookup u2.connections tok = some c ∧ c.outbox = []) := by
  refine ⟨rfl, ?_, ?_⟩
  · intro u u2 h
    exact clearConsensusTimeoutsGo_empties u.consensusTimeouts u u2 h
  · intro u u2 pid tok h hpt
    exact clearPeerOutboxesGo_clears u.peerTokens u u2 h tok
      (alistLookup_mem_sndMap u.peerTokens pid tok hpt)

/-- C7: a client message whose client id is absent from `client_tokens` is
dropped silently by `execute_actions`: the client-send loop treats the pair
as a strict no-op — no send, no error, no state change. -/
theorem client_message_absent_dropped (o : IOOracle) (cid : ClientId) (m : Message)
    (rest : List (ClientId × Message)) (s : ServerState)
    (h : alistLookup s.clientTokens cid = none) :
    sendClientMessagesGo o ((cid, m) :: rest) s = sendClientMessagesGo o rest s := by
  simp [sendClientMessagesGo, h]

/-- A concrete state for the client-drop witness: one unknown connection,
no clients. -/
def dropWitnessState : ServerState :=
  { id := 0, listenAddr := 9, connections := [(1, Connection.unknown 5)],
    maxConnections := 128, peerTokens := [], clientTokens := [],
    consensusTimeouts := [], reconnectionTimeouts := [],
    timeoutConfig := { election_min_ms := 150, election_max_ms := 350, heartbeat_ms := 60 },
    poll := { timers := [], nextHandle := 0 }, consensusCalls := [] }

/-- C7 witness: dropping a message for the unknown client 7 leaves the
state untouched. -/
theorem client_message_absent_dropped_witness :
    alistLookup dropWitnessState.clientTokens 7 = none ∧
    sendClientMessagesGo allOkOracle [(7, Message.payload 3)] dropWitnessState =
      sendClientMessagesGo allOkOracle [] dropWitnessState :=
  ⟨rfl, client_message_absent_dropped allOkOracle 7 (Message.payload 3) [] dropWitnessState rfl⟩

/-- The starting state for the duplicate-timer run: a freshly finalized
server with no peers. -/
def dupTimerState : ServerState :=
  { id := 0, listenAddr := 9, connections := [], maxConnections := 128,
    peerTokens := [], clientTokens := [], consensusTimeouts := [],
    reconnectionTimeouts := [],
    timeoutConfig := { election_min_ms := 150, election_max_ms := 350, heartbeat_ms := 60 },
    poll := { timers := [], nextHandle := 0 }, consensusCalls := [] }

/-- An `Actions` bundle that arms exactly one `Election` timeout. -/
def electionOnlyActions : Actions :=
  { peer_messages := [], client_messages := [], timeouts := [ConsensusTimeout.election],
    clear_timeouts := false, clear_peer_messages := false }

/-- C1: executing two `Actions` bundles that each arm an `Election` timeout
(the second while the first timer is still live) leaves TWO live timers
whose payload is `Consensus(Election)` in the wheel, while the
`consensus_timeouts` map holds a single entry: `execute_actions` inserts
the new handle but never cancels the replaced timer (the cancellation in
the source is commented out), so the claimed at-most-one bound fails. -/
theorem execute_actions_leaves_duplicate_consensus_timer :
    (Server.execute_actions allOkOracle electionOnlyActions dupTimerState >>=
        Server.execute_actions allOkOracle electionOnlyActions).map
      (fun s => (Poll.consensusTimerCount s.poll ConsensusTimeout.election,
                 s.consensusTimeouts.length)) = Except.ok (2, 1) := by
  rfl

/-- Erasing is a sublist operation. -/
theorem alistErase_sublist {α β : Type} [DecidableEq α] (l : List (α × β)) (a : α) :
    List.Sublist (alistErase l a) l := by
  induction l with
  | nil => simp [alistErase]
  | cons kv rest ih =>
    obtain ⟨k, v⟩ := kv
    by_cases hk : k = a
    · simp only [alistErase, if_pos hk]
      exact ih.cons _
    · simp only [alistErase, if_neg hk]
      exact ih.cons₂ _

/-- A key occurring in the domain has a successful lookup. -/
theorem alistLookup_isSome_of_key_mem {α β : Type} [DecidableEq α] (l : List (α × β))
    (a : α) (h : a ∈ l.map Prod.fst) : (alistLookup l a).isSome = true := by
  induction l with
  | nil => simp at h
  | cons kv rest ih =>
    obtain ⟨k, v⟩ := kv
    rw [List.map_cons] at h
    rcases List.mem_cons.mp h with h | h
    · subst h
      simp [alistLookup]
    · by_cases hk : k = a
      · simp [alistLookup, hk]
      · simp [alistLookup, hk, ih h]

/-- Inserting keeps the keys of the map distinct. -/
theorem alistInsert_keys_nodup {α β : Type} [DecidableEq α] (l : List (α × β)) (a : α)
    (b : β) (h : (l.map Prod.fst).Nodup) : ((alistInsert l a b).map Prod.fst).Nodup := by
  rw [alistInsert, List.map_cons, List.nodup_cons]
  refine ⟨?_, h.sublist ((alistErase_sublist l a).map Prod.fst)⟩
  intro hmem
  have hs := alistLookup_isSome_of_key_mem (alistErase l a) a hmem
  rw [alistLookup_erase_self] at hs
  simp at hs

/-- The peer-population loop never reports `InvalidPeerSet`. -/
theorem finalizeGo_ne_invalid :
    ∀ (peers : List (ServerId × SocketAddr)) (s : ServerState),
      finalizeGo peers s ≠ Except.error SrvError.invalidPeerSet := by
  intro peers
  induction peers with
  | nil => intro s h; simp [finalizeGo] at h
  | cons e rest ih =>
    intro s h
    obtain ⟨pid, paddr⟩ := e
    cases hfree : slabFreeToken s.connections s.maxConnections with
    | none => simp [finalizeGo, hfree] at h
    | some token =>
      by_cases hdup :
          (alistLookup ({ s with connections := (token, Connection.peer pid paddr) ::
              s.connections } : ServerState).peerTokens pid).isSome
      · simp [finalizeGo, hfree, hdup] at h
      · simp [finalizeGo, hfree, hdup] at h
        exact ih _ h

/-- The peer-population loop preserves existing connection-slot bindings. -/
theorem finalizeGo_preserves_conn :
    ∀ (peers : List (ServerId × SocketAddr)) (s0 s : ServerState),
      finalizeGo peers s0 = Except.ok s →
      ∀ (tok : Token) (c : Connection), alistLookup s0.connections tok = some c →
        alistLookup s.connections tok = some c := by
  intro peers
  induction peers with
  | nil =>
    intro s0 s h tok c hc
    simp [finalizeGo] at h
    exact h ▸ hc
  | cons e rest ih =>
    intro s0 s h tok c hc
    obtain ⟨pid, paddr⟩ := e
    cases hfree : slabFreeToken s0.connections s0.maxConnections with
    | none => simp [finalizeGo, hfree] at h
    | some token =>
      have hvac := slabFreeTokenGo_vacant s0.connections s0.maxConnections 1 token hfree
      have hne : ¬ (token = tok) := by
        intro hEq
        rw [hEq, hc] at hvac
        exact Option.noConfusion hvac
      by_cases hdup :
          (alistLookup ({ s0 with connections := (token, Connection.peer pid paddr) ::
              s0.connections } : ServerState).peerTokens pid).isSome
      · simp [finalizeGo, hfree, hdup] at h
      · simp [finalizeGo, hfree, hdup] at h
        refine ih _ _ h tok c ?_
        simp [alistLookup, hne]
        exact hc

/-- The peer-population loop preserves existing peer-index bindings. -/
theorem finalizeGo_preserves_peerTokens :
    ∀ (peers : List (ServerId × SocketAddr)) (s0 s : ServerState),
      finalizeGo peers s0 = Except.ok s →
      ∀ (pid : ServerId) (tok : Token), alistLookup s0.peerTokens pid = some tok →
        alistLookup s.peerTokens pid = some tok := by
  intro peers
  induction peers with
  | nil =>
    intro s0 s h pid tok hp
    simp [finalizeGo] at h
    exact h ▸ hp
  | cons e rest ih =>
    intro s0 s h pid tok hp
    obtain ⟨pid0, paddr0⟩ := e
    cases hfree : slabFreeToken s0.connections s0.maxConnections with
    | none => simp [finalizeGo, hfree] at h
    | some token =>
      by_cases hdup :
          (alistLookup ({ s0 with connections := (token, Connection.peer pid0 paddr0) ::
              s0.connections } : ServerState).peerTokens pid0).isSome
      · simp [finalizeGo, hfree, hdup] at h
      · simp [finalizeGo, hfree, hdup] at h
        have hne : ¬ (pid = pid0) := by
          intro hEq
          rw [← hEq] at hdup
          exact hdup (by simp [hp])
        refine ih _ _ h pid tok ?_
        rw [alistLookup_insert_ne _ _ _ _ hne]
        exact hp

/-- After the peer-population loop succeeds, every configured peer is
indexed and its token holds the dial-pending peer connection. -/
theorem finalizeGo_adds :
    ∀ (peers : List (ServerId × SocketAddr)) (s0 s : ServerState),
      finalizeGo peers s0 = Except.ok s →
      ∀ (pid : ServerId) (paddr : SocketAddr), alistLookup peers pid = some paddr →
        ∃ tok, alistLookup s.peerTokens pid = some tok ∧
          alistLookup s.connections tok = some (Connection.peer pid paddr) := by
  intro peers
  induction peers with
  | nil => intro s0 s h pid paddr hp; simp [alistLookup] at hp
  | cons e rest ih =>
    intro s0 s h pid paddr hp
    obtain ⟨pid0, paddr0⟩ := e
    cases hfree : slabFreeToken s0.connections s0.maxConnections with
    | none => simp [finalizeGo, hfree] at h
    | some token =>
      by_cases hdup :
          (alistLookup ({ s0 with connections := (token, Connection.peer pid0 paddr0) ::
              s0.connections } : ServerState).peerTokens pid0).isSome
      · simp [finalizeGo, hfree, hdup] at h
      · simp [finalizeGo, hfree, hdup] at h
        by_cases hpe : pid0 = pid
        · subst hpe
          have hpa : paddr0 = paddr := by
            simp [alistLookup] at hp
            exact hp
          subst hpa
          refine ⟨token, ?_, ?_⟩
          · exact finalizeGo_preserves_peerTokens rest _ s h pid0 token
              (by rw [alistLookup_insert_self])
          · exact finalizeGo_preserves_conn rest _ s h token (Connection.peer pid0 paddr0)
              (by simp [alistLookup])
        · refine ih _ s h pid paddr ?_
          simp [alistLookup, hpe] at hp
          exact hp

/-- Conversely, every peer indexed after the loop was either indexed before
or is among the processed peers. -/
theorem finalizeGo_sound :
    ∀ (peers : List (ServerId × SocketAddr)) (s0 s : ServerState),
      finalizeGo peers s0 = Except.ok s →
      ∀ pid : ServerId, (alistLookup s.peerTokens pid).isSome = true →
        (alistLookup s0.peerTokens pid).isSome = true ∨
          (alistLookup peers pid).isSome = true := by
  intro peers
  induction peers with
  | nil =>
    intro s0 s h pid hp
    simp [finalizeGo] at h
    exact Or.inl (h ▸ hp)
  | cons e rest ih =>
    intro s0 s h pid hp
    obtain ⟨pid0, paddr0⟩ := e
    cases hfree : slabFreeToken s0.connections s0.maxConnections with
    | none => simp [finalizeGo, hfree] at h
    | some token =>
      by_cases hdup :
          (alistLookup ({ s0 with connections := (token, Connection.peer pid0 paddr0) ::
              s0.connections } : ServerState).peerTokens pid0).isSome
      · simp [finalizeGo, hfree, hdup] at h
      · simp [finalizeGo, hfree, hdup] at h
        by_cases hpe : pid0 = pid
        · subst hpe
          right
          simp [alistLookup]
        · rcases ih _ s h pid hp with hl | hr
          · rw [alistLookup_insert_ne _ _ _ _ (fun hEq => hpe hEq.symm)] at hl
            exact Or.inl hl
          · right
            simp [alistLookup, hpe]
            exact hr

/-- The peer-population loop keeps the peer-index keys distinct. -/
theorem finalizeGo_nodup :
    ∀ (peers : List (ServerId × SocketAddr)) (s0 s : ServerState),
      finalizeGo peers s0 = Except.ok s →
      (s0.peerTokens.map Prod.fst).Nodup → (s.peerTokens.map Prod.fst).Nodup := by
  intro peers
  induction peers with
  | nil =>
    intro s0 s h hn
    simp [finalizeGo] at h
    exact h ▸ hn
  | cons e rest ih =>
    intro s0 s h hn
    obtain ⟨pid0, paddr0⟩ := e
    cases hfree : slabFreeToken s0.connections s0.maxConnections with
    | none => simp [finalizeGo, hfree] at h
    | some token =>
      by_cases hdup :
          (alistLookup ({ s0 with connections := (token, Connection.peer pid0 paddr0) ::
              s0.connections } : ServerState).peerTokens pid0).isSome
      · simp [finalizeGo, hfree, hdup] at h
      · simp [finalizeGo, hfree, hdup] at h
        exact ih _ s h (alistInsert_keys_nodup _ _ _ hn)

/-- The peer-population loop never touches the timeout configuration or the
connection capacity. -/
theorem finalizeGo_config :
    ∀ (peers : List (ServerId × SocketAddr)) (s0 s : ServerState),
      finalizeGo peers s0 = Except.ok s →
      s.timeoutConfig = s0.timeoutConfig ∧ s.maxConnections = s0.maxConnections := by
  intro peers
  induction peers with
  | nil =>
    intro s0 s h
    simp [finalizeGo] at h
    exact ⟨h ▸ rfl, h ▸ rfl⟩
  | cons e rest ih =>
    intro s0 s h
    obtain ⟨pid0, paddr0⟩ := e
    cases hfree : slabFreeToken s0.connections s0.maxConnections with
    | none => simp [finalizeGo, hfree] at h
    | some token =>
      by_cases hdup :
          (alistLookup ({ s0 with connections := (token, Connection.peer pid0 paddr0) ::
              s0.connections } : ServerState).peerTokens pid0).isSome
      · simp [finalizeGo, hfree, hdup] at h
      · simp [finalizeGo, hfree, hdup] at h
        have hcfg := ih _ s h
        exact ⟨hcfg.1, hcfg.2⟩

/-- C3: `Server::finalize` fails with `InvalidPeerSet` exactly when
`self_id` is a key of the peers map; when it is not, construction proceeds
past that check, and on success the peer index has distinct keys, indexes
exactly the configured peers, and maps each to a slot holding its
dial-pending `Peer` connection. -/
theorem finalize_peer_set_integrity (id : ServerId) (addr : SocketAddr)
    (peers : List (ServerId × SocketAddr)) (emin emax hb mx : Nat) :
    ((Server.finalize id addr peers emin emax hb mx =
        Except.error SrvError.invalidPeerSet) ↔ (alistLookup peers id).isSome = true) ∧
    (∀ s : ServerState, Server.finalize id addr peers emin emax hb mx = Except.ok s →
      (s.peerTokens.map Prod.fst).Nodup ∧
      (∀ pid : ServerId, (alistLookup s.peerTokens pid).isSome = true ↔
        (alistLookup peers pid).isSome = true) ∧
      (∀ (pid : ServerId) (paddr : SocketAddr), alistLookup peers pid = some paddr →
        ∃ tok, alistLookup s.peerTokens pid = some tok ∧
          alistLookup s.connections tok = some (Connection.peer pid paddr))) := by
  constructor
  · constructor
    · intro h
      by_cases hp : (alistLookup peers id).isSome
      · exact hp
      · exfalso
        simp only [Server.finalize, if_neg hp] at h
        exact finalizeGo_ne_invalid peers _ h
    · intro hp
      simp [Server.finalize, hp]
  · intro s hok
    have hif : ¬ ((alistLookup peers id).isSome = true) := by
      intro hp
      simp [Server.finalize, hp] at hok
    simp only [Server.finalize, if_neg hif] at hok
    refine ⟨finalizeGo_nodup peers _ s hok (by simp), ?_, ?_⟩
    · intro pid
      constructor
      · intro hsome
        rcases finalizeGo_sound peers _ s hok pid hsome with hl | hr
        · simp [alistLookup] at hl
        · exact hr
      · intro hsome
        cases hlp : alistLookup peers pid with
        | none => rw [hlp] at hsome; simp at hsome
        | some paddr =>
          obtain ⟨tok, htok, _⟩ := finalizeGo_adds peers _ s hok pid paddr hlp
          simp [htok]
    · intro pid paddr hlp
      exact finalizeGo_adds peers _ s hok pid paddr hlp

/-- The concrete result of finalizing self 0 with the peer set mapping
peer 1 to address 11. -/
def c3State : ServerState :=
  { id := 0, listenAddr := 9, connections := [(1, Connection.peer 1 11)],
    maxConnections := 128, peerTokens := [(1, 1)], clientTokens := [],
    consensusTimeouts := [], reconnectionTimeouts := [],
    timeoutConfig := { election_min_ms := 150, election_max_ms := 350, heartbeat_ms := 60 },
    poll := { timers := [], nextHandle := 0 }, consensusCalls := [] }

/-- C3 witness: with `self_id = 0` in the peer set, construction fails with
`InvalidPeerSet`; with peer set `{1 ↦ 11}` it succeeds and the index maps
peer 1 to the slot holding its dial-pending connection. -/
theorem finalize_peer_set_integrity_witness :
    Server.finalize 0 9 [(0, 11)] 150 350 60 128 =
        Except.error SrvError.invalidPeerSet ∧
    (∃ tok, alistLookup c3State.peerTokens 1 = some tok ∧
      alistLookup c3State.connections tok = some (Connection.peer 1 11)) :=
  ⟨(finalize_peer_set_integrity 0 9 [(0, 11)] 150 350 60 128).1.mpr (by decide),
   ((finalize_peer_set_integrity 0 9 [(1, 11)] 150 350 60 128).2 c3State
      (by decide)).2.2 1 11 (by decide)⟩

/-- C10: `Server::spawn` always constructs with the hardcoded configuration
1500/3000/1000 ms and 129 connections, while building through `Server::new`
without overrides yields the `ServerBuilder` defaults 150/350/60 ms and 128
connections; the two configurations differ in every component. -/
theorem spawn_config_differs_from_builder_defaults (id : ServerId) (addr : SocketAddr)
    (peers : List (ServerId × SocketAddr)) :
    (∀ s : ServerState, Server.spawn id addr peers = Except.ok s →
      s.timeoutConfig =
          { election_min_ms := 1500, election_max_ms := 3000, heartbeat_ms := 1000 } ∧
        s.maxConnections = 129) ∧
    (∀ s : ServerState, (ServerBuilder.new id addr).finalize = Except.ok s →
      s.timeoutConfig =
          { election_min_ms := 150, election_max_ms := 350, heartbeat_ms := 60 } ∧
        s.maxConnections = 128) ∧
    (∀ s s2 : ServerState, Server.spawn id addr peers = Except.ok s →
      (ServerBuilder.new id addr).finalize = Except.ok s2 →
      s.timeoutConfig ≠ s2.timeoutConfig ∧ s.maxConnections ≠ s2.maxConnections) := by
  have hspawn : ∀ s : ServerState, Server.spawn id addr peers = Except.ok s →
      s.timeoutConfig =
          { election_min_ms := 1500, election_max_ms := 3000, heartbeat_ms := 1000 } ∧
        s.maxConnections = 129 := by
    intro s hok
    by_cases hp : (alistLookup peers id).isSome
    · simp [Server.spawn, Server.finalize, hp] at hok
    · simp only [Server.spawn, Server.finalize, if_neg hp] at hok
      have hcfg := finalizeGo_config peers _ s hok
      exact ⟨hcfg.1, hcfg.2⟩
  have hdef : ∀ s : ServerState, (ServerBuilder.new id addr).finalize = Except.ok s →
      s.timeoutConfig =
          { election_min_ms := 150, election_max_ms := 350, heartbeat_ms := 60 } ∧
        s.maxConnections = 128 := by
    intro s hok
    simp only [ServerBuilder.finalize, ServerBuilder.new, Server.finalize,
      Option.getD_none, alistLookup] at hok
    have hcfg := finalizeGo_config [] _ s hok
    exact ⟨hcfg.1, hcfg.2⟩
  refine ⟨hspawn, hdef, ?_⟩
  intro s s2 h1 h2
  rw [(hspawn s h1).1, (hspawn s h1).2, (hdef s2 h2).1, (hdef s2 h2).2]
  constructor
  · intro hEq
    exact absurd (congrArg TimeoutConfiguration.election_min_ms hEq) (by decide)
  · decide

/-- The concrete server state `Server::spawn 0 9 []` produces. -/
def c10SpawnState : ServerState :=
  { id := 0, listenAddr := 9, connections := [], maxConnections := 129,
    peerTokens := [], clientTokens := [], consensusTimeouts := [],
    reconnectionTimeouts := [],
    timeoutConfig := { election_min_ms := 1500, election_max_ms := 3000,
                       heartbeat_ms := 1000 },
    poll := { timers := [], nextHandle := 0 }, consensusCalls := [] }

/-- The concrete server state the default builder of `Server::new 0 9`
produces. -/
def c10DefaultState : ServerState :=
  { id := 0, listenAddr := 9, connections := [], maxConnections := 128,
    peerTokens := [], clientTokens := [], consensusTimeouts := [],
    reconnectionTimeouts := [],
    timeoutConfig := { election_min_ms := 150, election_max_ms := 350,
                       heartbeat_ms := 60 },
    poll := { timers := [], nextHandle := 0 }, consensusCalls := [] }

/-- C10 witness: at `id = 0`, `addr = 9`, no peers, the spawn configuration
is 1500/3000/1000 with capacity 129 and differs from the default builder's
150/350/60 with capacity 128. -/
theorem spawn_config_differs_witness :
    (c10SpawnState.timeoutConfig =
        { election_min_ms := 1500, election_max_ms := 3000, heartbeat_ms := 1000 } ∧
      c10SpawnState.maxConnections = 129) ∧
    (c10SpawnState.timeoutConfig ≠ c10DefaultState.timeoutConfig ∧
      c10SpawnState.maxConnections ≠ c10DefaultState.maxConnections) :=
  ⟨(spawn_config_differs_from_builder_defaults 0 9 []).1 c10SpawnState (by decide),
   (spawn_config_differs_from_builder_defaults 0 9 []).2.2 c10SpawnState c10DefaultState
     (by decide) (by decide)⟩

/-- Resetting a peer connection — when the reset I/O succeeds and no
back-off timer is registered for the token — puts the connection into
back-off: cleared outbox, fresh `Reconnect` timer, recorded handle. -/
theorem reset_connection_peer_eq (o : IOOracle) (token : Token) (s : ServerState)
    (c : Connection) (pid : ServerId)
    (hc : alistLookup s.connections token = some c)
    (hk : c.kind = ConnectionKind.peer pid)
    (hok : o.resetPeerOk token = true)
    (hrt : alistLookup s.reconnectionTimeouts token = none) :
    Server.reset_connection o token s = Except.ok { s with
      connections := alistUpdate s.connections token (fun _ => { c with outbox := [] }),
      poll := { timers := (s.poll.nextHandle, ServerTimeout.reconnect token,
                  backoffDurationMs) :: s.poll.timers,
                nextHandle := s.poll.nextHandle + 1 },
      reconnectionTimeouts :=
        alistInsert s.reconnectionTimeouts token s.poll.nextHandle } := by
  simp [Server.reset_connection, hc, hk, hok, hrt, Connection.reset_peer, Poll.timeout_ms]

/-- Resetting a client connection removes its slot and its client-index
entry. -/
theorem reset_connection_client_eq (o : IOOracle) (token : Token) (s : ServerState)
    (c : Connection) (cid : ClientId)
    (hc : alistLookup s.connections token = some c)
    (hk : c.kind = ConnectionKind.client cid)
    (hcl : (alistLookup s.clientTokens cid).isSome = true) :
    Server.reset_connection o token s = Except.ok { s with
      connections := alistErase s.connections token,
      clientTokens := alistErase s.clientTokens cid } := by
  simp [Server.reset_connection, hc, hk, hcl]

/-- Resetting an unknown connection removes its slot. -/
theorem reset_connection_unknown_eq (o : IOOracle) (token : Token) (s : ServerState)
    (c : Connection)
    (hc : alistLookup s.connections token = some c)
    (hk : c.kind = ConnectionKind.unknown) :
    Server.reset_connection o token s = Except.ok { s with
      connections := alistErase s.connections token } := by
  simp [Server.reset_connection, hc, hk]

/-- C5: `reset_connection` acts by the connection's kind at call time: a
peer connection is reset in place — slot and peer-index entry preserved,
outbox cleared, `Reconnect(handle)` back-off timer armed and recorded in
`reconnection_timeouts`; a client connection's slot and client-index entry
are removed; an unknown connection's slot is removed. -/
theorem reset_connection_by_kind (o : IOOracle) (token : Token) (s : ServerState)
    (c : Connection) (hc : alistLookup s.connections token = some c) :
    (∀ pid : ServerId, c.kind = ConnectionKind.peer pid →
      o.resetPeerOk token = true →
      alistLookup s.reconnectionTimeouts token = none →
      ∃ s2, Server.reset_connection o token s = Except.ok s2 ∧
        alistLookup s2.connections token = some { c with outbox := [] } ∧
        s2.peerTokens = s.peerTokens ∧
        alistLookup s2.reconnectionTimeouts token = some s.poll.nextHandle ∧
        s2.poll.timers = (s.poll.nextHandle, ServerTimeout.reconnect token,
          backoffDurationMs) :: s.poll.timers) ∧
    (∀ cid : ClientId, c.kind = ConnectionKind.client cid →
      (alistLookup s.clientTokens cid).isSome = true →
      ∃ s2, Server.reset_connection o token s = Except.ok s2 ∧
        alistLookup s2.connections token = none ∧
        alistLookup s2.clientTokens cid = none) ∧
    (c.kind = ConnectionKind.unknown →
      ∃ s2, Server.reset_connection o token s = Except.ok s2 ∧
        alistLookup s2.connections token = none ∧
        s2.clientTokens = s.clientTokens ∧ s2.peerTokens = s.peerTokens) := by
  refine ⟨?_, ?_, ?_⟩
  · intro pid hk hok hrt
    refine ⟨_, reset_connection_peer_eq o token s c pid hc hk hok hrt, ?_, rfl, ?_, rfl⟩
    · rw [alistLookup_update_self, hc]
      rfl
    · rw [alistLookup_insert_self]
  · intro cid hk hcl
    exact ⟨_, reset_connection_client_eq o token s c cid hc hk hcl,
      alistLookup_erase_self _ _, alistLookup_erase_self _ _⟩
  · intro hk
    exact ⟨_, reset_connection_unknown_eq o token s c hc hk,
      alistLookup_erase_self _ _, rfl, rfl⟩

/-- A concrete state with one connection of each kind: peer 5 at token 1,
client 7 at token 2, unknown at token 3. -/
def c5State : ServerState :=
  { id := 0, listenAddr := 9,
    connections := [(1, Connection.peer 5 11),
      (2, { kind := ConnectionKind.client 7, addr := 12, outbox := [] }),
      (3, Connection.unknown 13)],
    maxConnections := 128, peerTokens := [(5, 1)], clientTokens := [(7, 2)],
    consensusTimeouts := [], reconnectionTimeouts := [],
    timeoutConfig := { election_min_ms := 150, election_max_ms := 350, heartbeat_ms := 60 },
    poll := { timers := [], nextHandle := 0 }, consensusCalls := [] }

/-- C5 witness: resetting the peer connection at token 1 of `c5State` keeps
the slot and the peer index and records the fresh back-off timer. -/
theorem reset_connection_by_kind_witness :
    ∃ s2, Server.reset_connection allOkOracle 1 c5State = Except.ok s2 ∧
      alistLookup s2.connections 1 = some { Connection.peer 5 11 with outbox := [] } ∧
      s2.peerTokens = c5State.peerTokens ∧
      alistLookup s2.reconnectionTimeouts 1 = some c5State.poll.nextHandle ∧
      s2.poll.timers = (c5State.poll.nextHandle, ServerTimeout.reconnect 1,
        backoffDurationMs) :: c5State.poll.timers :=
  (reset_connection_by_kind allOkOracle 1 c5State (Connection.peer 5 11) rfl).1 5
    rfl rfl rfl

/-- C6: on a `Reconnect(handle)` timeout the server removes the handle from
`reconnection_timeouts` (asserting it was present — an absent handle is an
assertion failure), requires the connection to still be a peer, reconnects
and registers it; on success it records the
`Consensus::peer_connection_reset` notification and executes the returned
`Actions`; on either failure it falls back to `reset_connection`, which —
when the reset I/O succeeds — re-arms the back-off timer. -/
theorem reconnect_timeout_spec (o : IOOracle) (acts : Actions) (token : Token)
    (s : ServerState) (c : Connection) (pid : ServerId) (h0 : TimerHandle)
    (hr : alistLookup s.reconnectionTimeouts token = some h0)
    (hc : alistLookup s.connections token = some c)
    (hk : c.kind = ConnectionKind.peer pid) :
    (o.reconnectOk token = true → o.registerOk token = true →
      Server.timeout o acts (ServerTimeout.reconnect token) s =
        Server.execute_actions o acts { s with
          reconnectionTimeouts := alistErase s.reconnectionTimeouts token,
          connections := alistUpdate s.connections token
            (fun _ => Connection.reconnect_peer c s.id s.listenAddr),
          consensusCalls := s.consensusCalls ++
            [ConsensusEvent.peerConnectionReset pid c.addr] }) ∧
    (o.reconnectOk token = false →
      Server.timeout o acts (ServerTimeout.reconnect token) s =
        Server.reset_connection o token
          { s with reconnectionTimeouts := alistErase s.reconnectionTimeouts token }) ∧
    (o.reconnectOk token = true → o.registerOk token = false →
      Server.timeout o acts (ServerTimeout.reconnect token) s =
        Server.reset_connection o token { s with
          reconnectionTimeouts := alistErase s.reconnectionTimeouts token,
          connections := alistUpdate s.connections token
            (fun _ => Connection.reconnect_peer c s.id s.listenAddr) }) ∧
    (o.reconnectOk token = false → o.resetPeerOk token = true →
      ∃ s2, Server.timeout o acts (ServerTimeout.reconnect token) s = Except.ok s2 ∧
        alistLookup s2.reconnectionTimeouts token = some s.poll.nextHandle ∧
        s2.poll.timers = (s.poll.nextHandle, ServerTimeout.reconnect token,
          backoffDurationMs) :: s.poll.timers) ∧
    (∀ sX : ServerState, alistLookup sX.reconnectionTimeouts token = none →
      Server.timeout o acts (ServerTimeout.reconnect token) sX =
        Except.error SrvError.panicAssert) := by
  refine ⟨?_, ?_, ?_, ?_, ?_⟩
  · intro hok1 hok2
    simp [Server.timeout, hr, hc, hk, hok1, hok2]
  · intro hfail
    simp [Server.timeout, hr, hc, hk, hfail]
  · intro hok1 hfail
    simp [Server.timeout, hr, hc, hk, hok1, hfail]
  · intro hfail hreset
    have heq : Server.timeout o acts (ServerTimeout.reconnect token) s =
        Server.reset_connection o token
          { s with reconnectionTimeouts := alistErase s.reconnectionTimeouts token } := by
      simp [Server.timeout, hr, hc, hk, hfail]
    have hres := reset_connection_peer_eq o token
      { s with reconnectionTimeouts := alistErase s.reconnectionTimeouts token } c pid
      hc hk hreset (alistLookup_erase_self s.reconnectionTimeouts token)
    rw [heq, hres]
    exact ⟨_, rfl, by rw [alistLookup_insert_self], rfl⟩
  · intro sX hnone
    simp [Server.timeout, hnone]

/-- A concrete state for the reconnect-timeout witness: peer 5 at token 1,
in back-off with timer handle 0 live in the wheel. -/
def c6State : ServerState :=
  { id := 0, listenAddr := 9,
    connections := [(1, Connection.peer 5 11)],
    maxConnections := 128, peerTokens := [(5, 1)], clientTokens := [],
    consensusTimeouts := [], reconnectionTimeouts := [(1, 0)],
    timeoutConfig := { election_min_ms := 150, election_max_ms := 350, heartbeat_ms := 60 },
    poll := { timers := [(0, ServerTimeout.reconnect 1, backoffDurationMs)],
              nextHandle := 1 },
    consensusCalls := [] }

/-- C6 witness: at `c6State` with all I/O succeeding, the reconnect timeout
reconnects the peer, notifies consensus, and executes the empty bundle. -/
theorem reconnect_timeout_spec_witness :
    Server.timeout allOkOracle Actions.empty (ServerTimeout.reconnect 1) c6State =
      Server.execute_actions allOkOracle Actions.empty { c6State with
        reconnectionTimeouts := alistErase c6State.reconnectionTimeouts 1,
        connections := alistUpdate c6State.connections 1
          (fun _ => Connection.reconnect_peer (Connection.peer 5 11) c6State.id
            c6State.listenAddr),
        consensusCalls := c6State.consensusCalls ++
          [ConsensusEvent.peerConnectionReset 5 (Connection.peer 5 11).addr] } :=
  (reconnect_timeout_spec allOkOracle Actions.empty 1 c6State (Connection.peer 5 11) 5 0
    rfl rfl rfl).1 rfl rfl

/-- After cancelling a handle, no timer with that handle stays in the
wheel. -/
theorem any_filter_ne_handle (l : List (TimerHandle × ServerTimeout × Nat))
    (hdl : TimerHandle) :
    ((l.filter (fun e => decide (e.fst ≠ hdl))).any
      (fun e => decide (e.fst = hdl))) = false := by
  induction l with
  | nil => rfl
  | cons e rest ih =>
    by_cases he : e.fst = hdl
    · simp only [List.filter_cons, he]
      simp only [decide_not, decide_eq_true_eq]
      simp [ih]
    · simp only [List.filter_cons]
      simp [he, ih]

/-- C2: receiving a `Server{peer_id, advertised_addr}` preamble on an
`Unknown` connection sets the connection's kind to `Peer(peer_id)` and its
address to the advertised address, swaps `peer_tokens[peer_id]` to the new
token, removes the old token's slot, cancels any reconnection timer keyed
by the old token, records the `peer_connection_reset` notification to
consensus, and then executes the returned `Actions`. -/
theorem server_preamble_swap_spec (o : IOOracle) (token prevToken : Token)
    (pid : ServerId) (paddr : SocketAddr) (acts : Actions) (s : ServerState)
    (c : Connection)
    (hc : alistLookup s.connections token = some c)
    (hp : alistLookup s.peerTokens pid = some prevToken)
    (hne : ¬ (prevToken = token))
    (hpc : (alistLookup s.connections prevToken).isSome = true)
    (hrt : (alistLookup s.reconnectionTimeouts prevToken).all
      (fun hdl => (s.poll.clear_timeout hdl).fst) = true) :
    ∃ s3, serverPreambleSwap token pid paddr s = Except.ok s3 ∧
      alistLookup s3.connections token =
        some { c with kind := ConnectionKind.peer pid, addr := paddr } ∧
      alistLookup s3.peerTokens pid = some token ∧
      alistLookup s3.connections prevToken = none ∧
      alistLookup s3.reconnectionTimeouts prevToken = none ∧
      s3.consensusCalls = s.consensusCalls ++
        [ConsensusEvent.peerConnectionReset pid paddr] ∧
      (∀ hdl, alistLookup s.reconnectionTimeouts prevToken = some hdl →
        (s3.poll.timers.any (fun e => decide (e.fst = hdl))) = false) ∧
      handleServerPreamble o token pid paddr acts s =
        Server.execute_actions o acts s3 := by
  obtain ⟨cPrev, hcPrev⟩ := Option.isSome_iff_exists.mp hpc
  have hlook2 : alistLookup (alistUpdate s.connections token
      (fun _ => { c with kind := ConnectionKind.peer pid, addr := paddr })) prevToken =
      some cPrev := by
    rw [alistLookup_update_ne _ _ _ _ hne]
    exact hcPrev
  have htn : ¬ (token = prevToken) := fun hh => hne hh.symm
  cases hrc : alistLookup s.reconnectionTimeouts prevToken with
  | none =>
    have hswap : serverPreambleSwap token pid paddr s = Except.ok { s with
        connections := alistErase (alistUpdate s.connections token
          (fun _ => { c with kind := ConnectionKind.peer pid, addr := paddr })) prevToken,
        peerTokens := alistInsert s.peerTokens pid token,
        consensusCalls := s.consensusCalls ++
          [ConsensusEvent.peerConnectionReset pid paddr] } := by
      simp [serverPreambleSwap, hc, hp, hlook2, hrc]
    refine ⟨_, hswap, ?_, ?_, ?_, ?_, rfl, ?_, ?_⟩
    · rw [alistLookup_erase_ne _ _ _ htn, alistLookup_update_self, hc]
      rfl
    · rw [alistLookup_insert_self]
    · rw [alistLookup_erase_self]
    · exact hrc
    · intro hdl hh
      exact Option.noConfusion hh
    · simp only [handleServerPreamble]
      rw [hswap]
      rfl
  | some hdl0 =>
    rw [hrc] at hrt
    have hfst : (s.poll.clear_timeout hdl0).fst = true := by
      simp [Option.all] at hrt
      exact hrt
    have hswap : serverPreambleSwap token pid paddr s = Except.ok { s with
        connections := alistErase (alistUpdate s.connections token
          (fun _ => { c with kind := ConnectionKind.peer pid, addr := paddr })) prevToken,
        peerTokens := alistInsert s.peerTokens pid token,
        reconnectionTimeouts := alistErase s.reconnectionTimeouts prevToken,
        poll := (s.poll.clear_timeout hdl0).snd,
        consensusCalls := s.consensusCalls ++
          [ConsensusEvent.peerConnectionReset pid paddr] } := by
      simp [serverPreambleSwap, hc, hp, hlook2, hrc, hfst]
    refine ⟨_, hswap, ?_, ?_, ?_, ?_, rfl, ?_, ?_⟩
    · rw [alistLookup_erase_ne _ _ _ htn, alistLookup_update_self, hc]
      rfl
    · rw [alistLookup_insert_self]
    · rw [alistLookup_erase_self]
    · rw [alistLookup_erase_self]
    · intro hdl hh
      cases hh
      simp [Poll.clear_timeout]
    · simp only [handleServerPreamble]
      rw [hswap]
      rfl

/-- A concrete state for the preamble-swap witness: the pre-populated peer
slot for peer 5 sits at token 1 with a back-off timer, and a freshly
accepted unknown connection sits at token 2. -/
def c2State : ServerState :=
  { id := 0, listenAddr := 9,
    connections := [(1, Connection.peer 5 11), (2, Connection.unknown 13)],
    maxConnections := 128, peerTokens := [(5, 1)], clientTokens := [],
    consensusTimeouts := [], reconnectionTimeouts := [(1, 0)],
    timeoutConfig := { election_min_ms := 150, election_max_ms := 350, heartbeat_ms := 60 },
    poll := { timers := [(0, ServerTimeout.reconnect 1, backoffDurationMs)],
              nextHandle := 1 },
    consensusCalls := [] }

/-- C2 witness: a server preamble from peer 5 advertising address 77 on the
unknown connection at token 2 of `c2State` performs the full swap. -/
theorem server_preamble_swap_spec_witness :
    ∃ s3, serverPreambleSwap 2 5 77 c2State = Except.ok s3 ∧
      alistLookup s3.connections 2 =
        some { Connection.unknown 13 with kind := ConnectionKind.peer 5, addr := 77 } ∧
      alistLookup s3.peerTokens 5 = some 2 ∧
      alistLookup s3.connections 1 = none ∧
      alistLookup s3.reconnectionTimeouts 1 = none ∧
      s3.consensusCalls = c2State.consensusCalls ++
        [ConsensusEvent.peerConnectionReset 5 77] ∧
      (∀ hdl, alistLookup c2State.reconnectionTimeouts 1 = some hdl →
        (s3.poll.timers.any (fun e => decide (e.fst = hdl))) = false) ∧
      handleServerPreamble allOkOracle 2 5 77 Actions.empty c2State =
        Server.execute_actions allOkOracle Actions.empty s3 :=
  server_preamble_swap_spec allOkOracle 2 1 5 77 Actions.empty c2State
    (Connection.unknown 13) rfl rfl (by decide) rfl (by decide)

/-- A live client connection for id 7 at token 1, and a fresh unknown
connection at token 2. -/
def c8State : ServerState :=
  { id := 0, listenAddr := 9,
    connections := [(1, { kind := ConnectionKind.client 7, addr := 12, outbox := [] }),
      (2, Connection.unknown 13)],
    maxConnections := 128, peerTokens := [], clientTokens := [(7, 1)],
    consensusTimeouts := [], reconnectionTimeouts := [],
    timeoutConfig := { election_min_ms := 150, election_max_ms := 350, heartbeat_ms := 60 },
    poll := { timers := [], nextHandle := 0 }, consensusCalls := [] }

/-- C8 counterexample: a second connection presenting client id 7 — already
held by the live connection at token 1 of `c8State` — makes the handler
abort with an assertion failure (`scoped_assert!` panics); the second
connection is not rejected by closing, and the server does not continue. -/
theorem client_preamble_duplicate_counterexample :
    handleClientPreamble 2 7 c8State = Except.error SrvError.panicAssert := by
  decide

/-- C8 amended: a client preamble whose id already has a live connection in
`client_tokens` triggers an assertion failure (a server panic) instead of a
graceful close of the second connection; a fresh id is promoted and indexed
normally, so two simultaneously indexed connections never share a client
id. -/
theorem client_preamble_duplicate_assertion (token : Token) (cid : ClientId)
    (s : ServerState) (c : Connection)
    (hc : alistLookup s.connections token = some c) :
    ((alistLookup s.clientTokens cid).isSome = true →
      handleClientPreamble token cid s = Except.error SrvError.panicAssert) ∧
    (alistLookup s.clientTokens cid = none →
      ∃ s2, handleClientPreamble token cid s = Except.ok s2 ∧
        alistLookup s2.connections token =
          some { c with kind := ConnectionKind.client cid } ∧
        alistLookup s2.clientTokens cid = some token) := by
  constructor
  · intro hdup
    simp [handleClientPreamble, hc, hdup]
  · intro hfresh
    refine ⟨{ s with
        connections := alistUpdate s.connections token
          (fun _ => { c with kind := ConnectionKind.client cid }),
        clientTokens := alistInsert s.clientTokens cid token }, ?_, ?_, ?_⟩
    · simp [handleClientPreamble, hc, hfresh]
    · rw [alistLookup_update_self, hc]
      rfl
    · rw [alistLookup_insert_self]

/-- C8 witness: at `c8State`, the duplicate id 7 panics the handler while
the fresh id 42 is accepted and indexed at token 2. -/
theorem client_preamble_duplicate_assertion_witness :
    handleClientPreamble 2 7 c8State = Except.error SrvError.panicAssert ∧
    (∃ s2, handleClientPreamble 2 42 c8State = Except.ok s2 ∧
      alistLookup s2.connections 2 =
        some { Connection.unknown 13 with kind := ConnectionKind.client 42 } ∧
      alistLookup s2.clientTokens 42 = some 2) :=
  ⟨(client_preamble_duplicate_assertion 2 7 c8State (Connection.unknown 13) rfl).1 rfl,
   (client_preamble_duplicate_assertion 2 42 c8State (Connection.unknown 13) rfl).2 rfl⟩

/-- The precondition under which `reset_connection` succeeds for the
connection's kind: the reset I/O succeeds and no stale back-off entry
exists (peer); the client id is indexed (client); nothing (unknown). -/
def resetPrecondB (o : IOOracle) (token : Token) (s : ServerState) (c : Connection) :
    Bool :=
  match c.kind with
  | ConnectionKind.peer _ =>
    o.resetPeerOk token && (alistLookup s.reconnectionTimeouts token).isNone
  | ConnectionKind.client cid => (alistLookup s.clientTokens cid).isSome
  | ConnectionKind.unknown => true

/-- C9 amended: connection-local errors — error and hangup events, a failed
write, a failed read or decode, a failed reregister, and a failed register
of a newly accepted connection — are all handled by resetting or removing
the affected token alone: the first four dispatch to `reset_connection`,
and when the reset's own I/O succeeds the reset returns normally and
touches no other connection's slot, no other reconnection-timer entry, no
other client-index entry, and neither the peer index, the consensus-timer
map, nor the consensus trace; a register failure during accept resets the
just-inserted `Unknown` connection, leaving every connection lookup and
every other component of the server exactly as before the accept, and the
accept path never aborts.  (When the reset I/O of a peer connection itself
fails the source crashes instead — see the counterexample.) -/
theorem local_errors_isolated (o : IOOracle) (drain : ServerState → Option ServerState)
    (token : Token) (s : ServerState) (c : Connection)
    (hl : ¬ (token = LISTENER))
    (hc : alistLookup s.connections token = some c)
    (hpre : resetPrecondB o token s c = true) :
    (∃ s2, Server.reset_connection o token s = Except.ok s2 ∧
      (∀ t : Token, ¬ (t = token) →
        alistLookup s2.connections t = alistLookup s.connections t) ∧
      s2.peerTokens = s.peerTokens ∧
      s2.consensusTimeouts = s.consensusTimeouts ∧
      s2.consensusCalls = s.consensusCalls ∧
      (∀ t : Token, ¬ (t = token) →
        alistLookup s2.reconnectionTimeouts t = alistLookup s.reconnectionTimeouts t) ∧
      (∀ cid2 : ClientId, ¬ (c.kind = ConnectionKind.client cid2) →
        alistLookup s2.clientTokens cid2 = alistLookup s.clientTokens cid2)) ∧
    (∀ b1 b2 b3 : Bool, Server.ready o drain token
        { is_error := true, is_hup := b1, is_writable := b2, is_readable := b3 } s =
      Server.reset_connection o token s) ∧
    (∀ b2 b3 : Bool, Server.ready o drain token
        { is_error := false, is_hup := true, is_writable := b2, is_readable := b3 } s =
      Server.reset_connection o token s) ∧
    (∀ b3 : Bool, o.writableOk token = false → Server.ready o drain token
        { is_error := false, is_hup := false, is_writable := true, is_readable := b3 } s =
      Server.reset_connection o token s) ∧
    (drain s = none → Server.ready o drain token
        { is_error := false, is_hup := false, is_writable := false, is_readable := true } s =
      Server.reset_connection o token s) ∧
    (∀ sD : ServerState, drain s = some sD →
      (alistLookup sD.connections token).isSome = true → o.reregOk token = false →
      Server.ready o drain token
        { is_error := false, is_hup := false, is_writable := false, is_readable := true } s =
      Server.reset_connection o token sD) ∧
    (∀ (o2 : IOOracle) (sA : ServerState) (addr : SocketAddr) (tok : Token),
      o2.accepted = some addr →
      slabFreeToken sA.connections sA.maxConnections = some tok →
      o2.registerOk tok = false →
      Server.ready o2 drain LISTENER
        { is_error := false, is_hup := false, is_writable := false, is_readable := true }
        sA = Except.ok (Server.accept_connection o2 sA) ∧
      (∀ t : Token, alistLookup (Server.accept_connection o2 sA).connections t =
        alistLookup sA.connections t) ∧
      (Server.accept_connection o2 sA).peerTokens = sA.peerTokens ∧
      (Server.accept_connection o2 sA).clientTokens = sA.clientTokens ∧
      (Server.accept_connection o2 sA).reconnectionTimeouts = sA.reconnectionTimeouts ∧
      (Server.accept_connection o2 sA).consensusTimeouts = sA.consensusTimeouts ∧
      (Server.accept_connection o2 sA).consensusCalls = sA.consensusCalls ∧
      (Server.accept_connection o2 sA).poll = sA.poll) := by
  refine ⟨?_, ?_, ?_, ?_, ?_, ?_, ?_⟩
  · cases hkind : c.kind with
    | peer pid =>
      simp only [resetPrecondB, hkind, Bool.and_eq_true, Option.isNone_iff_eq_none] at hpre
      refine ⟨_, reset_connection_peer_eq o token s c pid hc hkind hpre.1 hpre.2,
        ?_, rfl, rfl, rfl, ?_, ?_⟩
      · intro t ht
        rw [alistLookup_update_ne _ _ _ _ ht]
      · intro t ht
        rw [alistLookup_insert_ne _ _ _ _ ht]
      · intro cid2 _
        rfl
    | client cid =>
      simp only [resetPrecondB, hkind] at hpre
      refine ⟨_, reset_connection_client_eq o token s c cid hc hkind hpre,
        ?_, rfl, rfl, rfl, ?_, ?_⟩
      · intro t ht
        rw [alistLookup_erase_ne _ _ _ ht]
      · intro t ht
        rfl
      · intro cid2 hcid
        have hne2 : ¬ (cid2 = cid) := fun hh => hcid (by rw [hh])
        rw [alistLookup_erase_ne _ _ _ hne2]
    | unknown =>
      refine ⟨_, reset_connection_unknown_eq o token s c hc hkind,
        ?_, rfl, rfl, rfl, ?_, ?_⟩
      · intro t ht
        rw [alistLookup_erase_ne _ _ _ ht]
      · intro t ht
        rfl
      · intro cid2 _
        rfl
  · intro b1 b2 b3
    simp [Server.ready, hl]
  · intro b2 b3
    simp [Server.ready, hl]
  · intro b3 hw
    simp [Server.ready, hl, hc, hw]
  · intro hd
    simp [Server.ready, Server.readyReadable, hl, hd]
  · intro sD hd hlk hrr
    obtain ⟨cD, hcD⟩ := Option.isSome_iff_exists.mp hlk
    simp [Server.ready, Server.readyReadable, hl, hd, hcD, hrr]
  · intro o2 sA addr tok haccept hfree hreg
    have hvac : alistLookup sA.connections tok = none :=
      slabFreeTokenGo_vacant sA.connections sA.maxConnections 1 tok hfree
    have hresetEq := reset_connection_unknown_eq o2 tok
      { sA with connections := (tok, Connection.unknown addr) :: sA.connections }
      (Connection.unknown addr) (by simp [alistLookup]) rfl
    have haeq : Server.accept_connection o2 sA = { sA with
        connections :=
          alistErase ((tok, Connection.unknown addr) :: sA.connections) tok } := by
      simp [Server.accept_connection, haccept, hfree, hreg, hresetEq]
    have herase : alistErase ((tok, Connection.unknown addr) :: sA.connections) tok =
        alistErase sA.connections tok := by
      simp [alistErase]
    refine ⟨?_, ?_, by rw [haeq], by rw [haeq], by rw [haeq], by rw [haeq],
      by rw [haeq], by rw [haeq]⟩
    · simp [Server.ready, Server.readyReadable]
    · intro t
      rw [haeq]
      show alistLookup
          (alistErase ((tok, Connection.unknown addr) :: sA.connections) tok) t =
        alistLookup sA.connections t
      rw [herase]
      by_cases ht : t = tok
      · subst ht
        rw [alistLookup_erase_self, hvac]
      · rw [alistLookup_erase_ne _ _ _ ht]

/-- A single peer connection at token 1, healthy (no back-off). -/
def c9State : ServerState :=
  { id := 0, listenAddr := 9, connections := [(1, Connection.peer 5 11)],
    maxConnections := 128, peerTokens := [(5, 1)], clientTokens := [],
    consensusTimeouts := [], reconnectionTimeouts := [],
    timeoutConfig := { election_min_ms := 150, election_max_ms := 350, heartbeat_ms := 60 },
    poll := { timers := [], nextHandle := 0 }, consensusCalls := [] }

/-- An oracle on which every reset of a peer connection fails. -/
def noResetOracle : IOOracle :=
  { allOkOracle with resetPeerOk := fun _ => false }

/-- C9 counterexample: an error event on the peer connection at token 1 of
`c9State` while the reset I/O itself fails aborts the whole handler with a
panic (the source unwraps `reset_peer` — "Crash if reseting the connection
fails"), so a failure while resetting a connection does propagate beyond
that connection. -/
theorem ready_reset_failure_aborts :
    Server.ready noResetOracle (fun st => some st) 1
      { is_error := true, is_hup := false, is_writable := false, is_readable := false }
      c9State = Except.error SrvError.panicUnwrap := by
  decide

/-- An oracle with a pending accepted socket at address 21 on which every
`register` call fails. -/
def regFailOracle : IOOracle :=
  { allOkOracle with registerOk := fun _ => false, accepted := some 21 }

/-- C9 witness: at `c9State` with the reset I/O succeeding, an error event
on token 1 dispatches to `reset_connection`, which succeeds and leaves
every other observable component unchanged; and a register failure on the
connection accepted at token 2 leaves every connection lookup and the
timer wheel exactly as before the accept, without aborting. -/
theorem local_errors_isolated_witness :
    (∃ s2, Server.reset_connection allOkOracle 1 c9State = Except.ok s2 ∧
      (∀ t : Token, ¬ (t = 1) →
        alistLookup s2.connections t = alistLookup c9State.connections t) ∧
      s2.peerTokens = c9State.peerTokens ∧
      s2.consensusTimeouts = c9State.consensusTimeouts ∧
      s2.consensusCalls = c9State.consensusCalls ∧
      (∀ t : Token, ¬ (t = 1) →
        alistLookup s2.reconnectionTimeouts t =
          alistLookup c9State.reconnectionTimeouts t) ∧
      (∀ cid2 : ClientId,
        ¬ ((Connection.peer 5 11).kind = ConnectionKind.client cid2) →
        alistLookup s2.clientTokens cid2 = alistLookup c9State.clientTokens cid2)) ∧
    Server.ready allOkOracle (fun st => some st) 1
      { is_error := true, is_hup := false, is_writable := false, is_readable := false }
      c9State = Server.reset_connection allOkOracle 1 c9State ∧
    (∀ t : Token,
      alistLookup (Server.accept_connection regFailOracle c9State).connections t =
        alistLookup c9State.connections t) ∧
    (Server.accept_connection regFailOracle c9State).poll = c9State.poll :=
  ⟨(local_errors_isolated allOkOracle (fun st => some st) 1 c9State
      (Connection.peer 5 11) (by decide) rfl (by decide)).1,
   (local_errors_isolated allOkOracle (fun st => some st) 1 c9State
      (Connection.peer 5 11) (by decide) rfl (by decide)).2.1 false false false,
   ((local_errors_isolated allOkOracle (fun st => some st) 1 c9State
      (Connection.peer 5 11) (by decide) rfl (by decide)).2.2.2.2.2.2 regFailOracle
      c9State 21 2 rfl (by decide) rfl).2.1,
   ((local_errors_isolated allOkOracle (fun st => some st) 1 c9State
      (Connection.peer 5 11) (by decide) rfl (by decide)).2.2.2.2.2.2 regFailOracle
      c9State 21 2 rfl (by decide) rfl).2.2.2.2.2.2.2⟩

/-- A state with one registered election timer, live in the wheel, and one
peer whose outbox holds a queued message. -/
def c4State : ServerState :=
  { id := 0, listenAddr := 9,
    connections :=
      [(1, { kind := ConnectionKind.peer 5, addr := 11, outbox := [Message.payload 4] })],
    maxConnections := 128, peerTokens := [(5, 1)], clientTokens := [],
    consensusTimeouts := [(ConsensusTimeout.election, 0)], reconnectionTimeouts := [],
    timeoutConfig := { election_min_ms := 150, election_max_ms := 350, heartbeat_ms := 60 },
    poll := { timers := [(0, ServerTimeout.consensus ConsensusTimeout.election, 150)],
              nextHandle := 1 },
    consensusCalls := [] }

/-- The result of the clear-timers phase at `c4State`. -/
def c4AfterClearTimers : ServerState :=
  { c4State with consensusTimeouts := [], poll := { timers := [], nextHandle := 1 } }

/-- The result of the clear-outboxes phase at `c4State`. -/
def c4AfterClearOutboxes : ServerState :=
  { c4State with
    connections := alistUpdate c4State.connections 1 Connection.clear_messages }

/-- C4 witness: at `c4State` the clear-timers phase empties the consensus
timer map and the clear-outboxes phase empties peer 5's outbox. -/
theorem execute_actions_fixed_order_witness :
    c4AfterClearTimers.consensusTimeouts = [] ∧
    (∃ c, alistLookup c4AfterClearOutboxes.connections 1 = some c ∧ c.outbox = []) :=
  ⟨(execute_actions_fixed_order allOkOracle electionOnlyActions c4State).2.1 c4State
      c4AfterClearTimers (by decide),
   (execute_actions_fixed_order allOkOracle electionOnlyActions c4State).2.2 c4State
      c4AfterClearOutboxes 5 1 (by decide) (by decide)⟩
